import Mathlib

/-!
Verification of the build-group supervisor of `go-live-reload`
(`build.go`, wiring in `main.go`).

The development shallowly embeds:

* `CheckFiles` — the glob-pattern snapshot resolver (`build.go`,
  `func CheckFiles`), over an abstract filesystem `FileSys` whose `glob`
  and `stat` operations may fail (`none` models a returned error);
* the per-tick body of `Build.Watch` (`build.go`, `func (b *Build) Watch`)
  as the pure function `watchTick`, with the mid-loop memo mutation of the
  Go `for i, file := range files` loop embedded faithfully by `scanTick`;
* the control flow of `Build.Start` (`build.go`, `func (b *Build) Start`)
  as the step function `runnerStep` on the runner's blocking points;
* the watcher/runner pair sharing the unbuffered restart channel
  (`main.go`: `restart := make(chan struct{})`) as the interleaving
  transition system `Step` with reachability predicate `Reachable`.
-/

/-- The slice of Go's `fs.FileInfo` actually consumed by the watcher:
`os.Stat` yields it, `Watch` compares only `ModTime()`.  Modification
times (`time.Time`, compared with `!=`) are modelled as integers. -/
structure FileInfo where
  path : String
  modTime : Int
deriving DecidableEq, Repr

/-- Default `FileInfo` used by `List.getD`; never reached under the
equal-length preconditions in force wherever indexing occurs. -/
def fdef : FileInfo := ⟨"", 0⟩

/-- Abstract filesystem against which `CheckFiles` resolves.
`glob g = none` models `filepath.Glob` returning an error for pattern
`g`; `some ms` is its match list in glob-enumeration order.
`stat m = none` models `os.Stat` failing on path `m`. -/
structure FileSys where
  glob : String → Option (List String)
  stat : String → Option FileInfo

/-- Body of the inner `for _, match := range matches` loop of
`CheckFiles` (`build.go`): `os.Stat` the match; on error log and
`continue`, otherwise `files = append(files, file)`. -/
def statFold (fsys : FileSys) (acc : List FileInfo) (m : String) :
    List FileInfo :=
  match fsys.stat m with
  | none => acc
  | some fi => acc ++ [fi]

/-- Body of the outer `for _, glob := range globs` loop of `CheckFiles`
(`build.go`): `filepath.Glob` the pattern; on error log and `continue`,
otherwise run the inner loop over the matches. -/
def globFold (fsys : FileSys) (files : List FileInfo) (g : String) :
    List FileInfo :=
  match fsys.glob g with
  | none => files
  | some ms => ms.foldl (statFold fsys) files

/-- Embedding of `func CheckFiles(globs []string) []fs.FileInfo`
(`build.go`): start from the empty slice `files := []fs.FileInfo{}` and
run the nested loops over patterns and matches. -/
def CheckFiles (fsys : FileSys) (globs : List String) : List FileInfo :=
  globs.foldl (globFold fsys) []

/-- Modelled from the spec: "produce the concatenation (pattern order,
then match order) of metadata for every file each pattern matches"; a
failing glob pattern contributes nothing (skipped), a failing stat
drops just that path.  Stated independently of `CheckFiles` to compare
the two. -/
def checkFilesSpec (fsys : FileSys) (globs : List String) : List FileInfo :=
  (globs.map (fun g => ((fsys.glob g).getD []).filterMap fsys.stat)).flatten

/-- Embedding of the `for i, file := range files` loop of `Watch`
(`build.go`): index `i` walks `files`; on the first position whose
modification time differs from `memoized[i]` the watcher sends one
restart signal (counted in `sent`) and assigns `memoized = files`, after
which the remaining comparisons run against the updated memo. -/
def scanTick (files : List FileInfo) (i : Nat) (memo : List FileInfo)
    (sent : Nat) : List FileInfo × Nat :=
  if i < files.length then
    if (files.getD i fdef).modTime ≠ (memo.getD i fdef).modTime then
      scanTick files (i + 1) files (sent + 1)
    else
      scanTick files (i + 1) memo sent
  else
    (memo, sent)
termination_by files.length - i
decreasing_by all_goals omega

/-- Embedding of one `tick.C` iteration of `Watch` (`build.go`): resolve
`files`; if `len(files) == 0` skip; if `len(memoized) == 0` skip; if the
lengths differ send one signal and replace the memo; otherwise run the
per-position modification-time scan.  Returns the new memo and the
number of restart signals sent on this tick. -/
def watchTick (memo files : List FileInfo) : List FileInfo × Nat :=
  if files.length = 0 then (memo, 0)
  else if memo.length = 0 then (memo, 0)
  else if files.length ≠ memo.length then (files, 1)
  else scanTick files 0 memo 0

/-- Iterated ticks of `Watch`: feed a sequence of freshly resolved
snapshots through `watchTick`, threading the memo and summing the
signals sent. -/
def watchRun (memo : List FileInfo) (snaps : List (List FileInfo)) :
    List FileInfo × Nat :=
  match snaps with
  | [] => (memo, 0)
  | files :: rest =>
    let r := watchTick memo files
    let rr := watchRun r.1 rest
    (rr.1, r.2 + rr.2)

/-- The blocking points of `Build.Start` (`build.go`): `building` is the
synchronous `b.Build()` call; `awaitRestart` is the bare `<-restart`
after a failed build; `selecting` is the `select` with the run goroutine
live; `terminated` is after `return`. -/
inductive RState where
  | building
  | awaitRestart
  | selecting
  | terminated
deriving DecidableEq, Repr

/-- Events the runner can be offered at a blocking point: the synchronous
build finishing (ok or failed), a restart-channel receive, the parent
context's `Done` channel firing, and the asynchronous exit of the run
goroutine after a process failure — an event for which `Start` has no
channel and no `select` case. -/
inductive RInput where
  | buildOk
  | buildFail
  | restart
  | cancel
  | runFailed
deriving DecidableEq, Repr

/-- Result of one runner step: next blocking point, whether
`go b.Run(runContext)` was issued, and whether `runCancel()` was
called. -/
structure RStep where
  next : RState
  runStarted : Bool
  runCancelled : Bool
deriving DecidableEq, Repr

/-- Transliteration of the `for` loop of `Build.Start` (`build.go`).
After a successful build the code creates `runContext` and issues
`go b.Run(runContext)` then blocks in `select`.  After a failed build it
blocks on `<-restart`; on receipt it falls through — with no `continue`
— to the very same `go b.Run` and `select` lines.  In `select`,
`<-parentContext.Done()` runs `runCancel()` and `return`s, while
`<-restart` runs `runCancel()` and `continue`s to the next build.  An
event not received at a given blocking point leaves the runner blocked
there (state unchanged, no action); `runFailed` is never received
anywhere. -/
def runnerStep : RState → RInput → RStep
  | .building, .buildOk => ⟨.selecting, true, false⟩
  | .building, .buildFail => ⟨.awaitRestart, false, false⟩
  | .awaitRestart, .restart => ⟨.selecting, true, false⟩
  | .selecting, .cancel => ⟨.terminated, false, true⟩
  | .selecting, .restart => ⟨.building, false, true⟩
  | s, _ => ⟨s, false, false⟩

/-- Capacity of the per-group restart channel: `main.go` creates it with
`restart := make(chan struct{})`, i.e. unbuffered. -/
def restartChanCap : Nat := 0

/-- Watcher phases relevant to the handshake: `idle` (between ticks or
scanning) and `wantSend` (a change was detected and the watcher is
executing the blocking `restart <- struct{}{}`). -/
inductive WPhase where
  | idle
  | wantSend
deriving DecidableEq, Repr

/-- Joint state of one build group's runner/watcher pair: the runner's
blocking point, the watcher's phase, and the number of sent-but-unreceived
signals buffered inside the channel. -/
structure Sys where
  runner : RState
  watcher : WPhase
  buffered : Nat
deriving DecidableEq, Repr

/-- The two program points at which `Start` receives from the restart
channel: the bare `<-restart` after a failed build, and the `select`
case. -/
def receivesRestart (r : RState) : Prop :=
  r = RState.awaitRestart ∨ r = RState.selecting

/-- Interleaving semantics of one watcher/runner pair over the restart
channel, with Go channel semantics for a channel of capacity
`restartChanCap`: a send completes against buffer space or by rendezvous
with a blocked receiver; a receive completes from the buffer or by
rendezvous.  Runner transitions are those of `runnerStep`. -/
inductive Step : Sys → Sys → Prop where
  | detect (r : RState) (buf : Nat) :
      Step ⟨r, .idle, buf⟩ ⟨r, .wantSend, buf⟩
  | sendBuffered (r : RState) (buf : Nat) (h : buf < restartChanCap) :
      Step ⟨r, .wantSend, buf⟩ ⟨r, .idle, buf + 1⟩
  | recvBuffered (r : RState) (w : WPhase) (buf : Nat) (h : 0 < buf)
      (hr : receivesRestart r) :
      Step ⟨r, w, buf⟩ ⟨(runnerStep r .restart).next, w, buf - 1⟩
  | handshake (r : RState) (hr : receivesRestart r) :
      Step ⟨r, .wantSend, 0⟩ ⟨(runnerStep r .restart).next, .idle, 0⟩
  | buildOk (w : WPhase) (buf : Nat) :
      Step ⟨.building, w, buf⟩ ⟨(runnerStep .building .buildOk).next, w, buf⟩
  | buildFail (w : WPhase) (buf : Nat) :
      Step ⟨.building, w, buf⟩ ⟨(runnerStep .building .buildFail).next, w, buf⟩
  | cancel (w : WPhase) (buf : Nat) :
      Step ⟨.selecting, w, buf⟩ ⟨(runnerStep .selecting .cancel).next, w, buf⟩

/-- States reachable from the group's start: the runner enters its loop
at the first `b.Build()` call, the watcher has just memoized its initial
snapshot, and the freshly created channel is empty. -/
inductive Reachable : Sys → Prop where
  | init : Reachable ⟨.building, .idle, 0⟩
  | step {s t : Sys} : Reachable s → Step s t → Reachable t

/-- Signals produced but not yet consumed by the runner: those buffered
in the channel plus the one a blocked sender is holding. -/
def outstanding (s : Sys) : Nat :=
  s.buffered + (if s.watcher = WPhase.wantSend then 1 else 0)

/-! ## Helper lemmas -/

/-- Scanning `files` against itself finds no differing modification time:
no signal is sent and the memo argument is returned unchanged. -/
theorem scanTick_self (files : List FileInfo) (i sent : Nat) :
    scanTick files i files sent = (files, sent) := by
  unfold scanTick
  by_cases h : i < files.length
  · rw [if_pos h, if_neg (by simp)]
    exact scanTick_self files (i + 1) sent
  · rw [if_neg h]
termination_by files.length - i
decreasing_by all_goals omega

/-- When every position from `i` on has equal modification times, the
scan loop sends nothing and leaves the memo untouched. -/
theorem scanTick_nodiff (files memo : List FileInfo) (i sent : Nat)
    (h : ∀ j, i ≤ j → j < files.length →
      (files.getD j fdef).modTime = (memo.getD j fdef).modTime) :
    scanTick files i memo sent = (memo, sent) := by
  unfold scanTick
  by_cases hi : i < files.length
  · rw [if_pos hi, if_neg (not_ne_iff.mpr (h i le_rfl hi))]
    exact scanTick_nodiff files memo (i + 1) sent
      (fun j hj hj2 => h j (by omega) hj2)
  · rw [if_neg hi]
termination_by files.length - i
decreasing_by all_goals omega

/-- When some position from `i` on has a differing modification time, the
scan loop sends exactly one signal and replaces the memo with `files`:
after the first hit the memo already equals `files`, so the remaining
comparisons can find no further difference. -/
theorem scanTick_diff (files memo : List FileInfo) (i sent : Nat)
    (h : ∃ k, i ≤ k ∧ k < files.length ∧
      (files.getD k fdef).modTime ≠ (memo.getD k fdef).modTime) :
    scanTick files i memo sent = (files, sent + 1) := by
  obtain ⟨k, hik, hk, hne⟩ := h
  have hi : i < files.length := lt_of_le_of_lt hik hk
  unfold scanTick
  rw [if_pos hi]
  by_cases hd : (files.getD i fdef).modTime ≠ (memo.getD i fdef).modTime
  · rw [if_pos hd]
    exact scanTick_self files (i + 1) (sent + 1)
  · rw [if_neg hd]
    apply scanTick_diff files memo (i + 1) sent
    have hik2 : i ≠ k := by
      intro he
      exact hd (he ▸ hne)
    exact ⟨k, by omega, hk, hne⟩
termination_by files.length - i
decreasing_by all_goals omega

/-- A tick whose fresh snapshot has the memo's length and the memo's
modification time at every position sends nothing and keeps the memo. -/
theorem watchTick_eq_of_modTimes_eq (memo files : List FileInfo)
    (hlen : files.length = memo.length)
    (hmt : ∀ k, k < files.length →
      (files.getD k fdef).modTime = (memo.getD k fdef).modTime) :
    watchTick memo files = (memo, 0) := by
  unfold watchTick
  by_cases h0 : files.length = 0
  · rw [if_pos h0]
  · rw [if_neg h0, if_neg (by omega : ¬memo.length = 0),
      if_neg (not_ne_iff.mpr hlen)]
    exact scanTick_nodiff files memo 0 0 (fun j _ hj => hmt j hj)

/-- The inner match loop accumulates, onto `acc`, exactly the stat
results of the matches that stat successfully, in match order. -/
theorem statFold_foldl (fsys : FileSys) (ms : List String)
    (acc : List FileInfo) :
    ms.foldl (statFold fsys) acc = acc ++ ms.filterMap fsys.stat := by
  induction ms generalizing acc with
  | nil => simp
  | cons m rest ih =>
    simp only [List.foldl_cons, List.filterMap_cons, statFold]
    cases h : fsys.stat m with
    | none => simp [ih]
    | some fi => simp [ih]
  
/-- The outer glob loop accumulates, onto `acc`, the concatenation in
pattern order of each pattern's successfully statted matches, a failing
pattern contributing nothing. -/
theorem globFold_foldl (fsys : FileSys) (globs : List String)
    (acc : List FileInfo) :
    globs.foldl (globFold fsys) acc =
      acc ++ (globs.map
        (fun g => ((fsys.glob g).getD []).filterMap fsys.stat)).flatten := by
  induction globs generalizing acc with
  | nil => simp
  | cons g rest ih =>
    simp only [List.foldl_cons, List.map_cons, List.flatten_cons, globFold]
    cases h : fsys.glob g with
    | none => simp [ih]
    | some ms => simp [ih, statFold_foldl]

/-! ## Claim theorems -/

/-- C7: for every ordered list of glob patterns, `CheckFiles` returns
the concatenation, in pattern order then match order, of metadata for
every matched file; a pattern whose glob evaluation fails is skipped, a
matched path whose stat fails is skipped, and in both cases resolution
proceeds with the remaining items. -/
theorem checkFiles_concatenation (fsys : FileSys) (globs : List String) :
    CheckFiles fsys globs = checkFilesSpec fsys globs := by
  unfold CheckFiles checkFilesSpec
  simpa using globFold_foldl fsys globs []

/-- C3: a tick on which the freshly resolved snapshot is empty sends no
restart signal and leaves the memoized snapshot unmodified, for every
possible value of the previous memo. -/
theorem watch_empty_fresh_noop (memo files : List FileInfo)
    (h : files.length = 0) : watchTick memo files = (memo, 0) := by
  unfold watchTick
  rw [if_pos h]

/-- C3 witness. -/
theorem watch_empty_fresh_noop_witness :
    watchTick [⟨"a", 1⟩] [] = ([⟨"a", 1⟩], 0) :=
  watch_empty_fresh_noop [⟨"a", 1⟩] [] rfl

/-- C4: a tick whose fresh snapshot equals the memoized one (same
length, same modification time at every position) sends no restart
signal and leaves the memo unchanged — a no-op on the watcher state. -/
theorem watch_unchanged_noop (memo files : List FileInfo)
    (hlen : files.length = memo.length)
    (hmt : ∀ k, k < files.length →
      (files.getD k fdef).modTime = (memo.getD k fdef).modTime) :
    watchTick memo files = (memo, 0) :=
  watchTick_eq_of_modTimes_eq memo files hlen hmt

/-- C4 witness. -/
theorem watch_unchanged_noop_witness :
    watchTick [⟨"a", 1⟩, ⟨"b", 2⟩] [⟨"a", 1⟩, ⟨"b", 2⟩] =
      ([⟨"a", 1⟩, ⟨"b", 2⟩], 0) :=
  watch_unchanged_noop [⟨"a", 1⟩, ⟨"b", 2⟩] [⟨"a", 1⟩, ⟨"b", 2⟩]
    rfl (by decide)

/-- C2: on a tick where fresh and memoized snapshots are both non-empty
and of equal length and some position has a differing modification time,
exactly one restart signal is sent (not one per differing position) and
the memo is replaced with the fresh snapshot. -/
theorem watch_timestamp_change_one_signal (memo files : List FileInfo)
    (hm : memo ≠ []) (hf : files ≠ [])
    (hlen : files.length = memo.length)
    (hdiff : ∃ k, k < files.length ∧
      (files.getD k fdef).modTime ≠ (memo.getD k fdef).modTime) :
    watchTick memo files = (files, 1) := by
  unfold watchTick
  rw [if_neg (fun h => hf (List.length_eq_zero.mp h)),
    if_neg (fun h => hm (List.length_eq_zero.mp h)),
    if_neg (not_ne_iff.mpr hlen)]
  obtain ⟨k, hk, hne⟩ := hdiff
  exact scanTick_diff files memo 0 0 ⟨k, Nat.zero_le k, hk, hne⟩

/-- C2 witness: both positions differ in modification time, yet exactly
one signal is sent. -/
theorem watch_timestamp_change_one_signal_witness :
    watchTick [⟨"a", 1⟩, ⟨"b", 2⟩] [⟨"a", 5⟩, ⟨"b", 7⟩] =
      ([⟨"a", 5⟩, ⟨"b", 7⟩], 1) :=
  watch_timestamp_change_one_signal
    [⟨"a", 1⟩, ⟨"b", 2⟩] [⟨"a", 5⟩, ⟨"b", 7⟩]
    (by decide) (by decide) rfl ⟨0, by decide, by decide⟩

/-- C9: an empty memo is absorbing — a tick never refreshes an empty
memo and never signals from it, so a watcher whose startup snapshot was
empty keeps an empty memo and sends no signal over any sequence of later
snapshots, however non-empty and changing. -/
theorem watch_empty_memo_invariant :
    (∀ files, watchTick [] files = ([], 0)) ∧
    (∀ snaps, watchRun [] snaps = ([], 0)) := by
  have h1 : ∀ files : List FileInfo, watchTick [] files = ([], 0) := by
    intro files
    unfold watchTick
    by_cases h0 : files.length = 0
    · rw [if_pos h0]
    · rw [if_neg h0]
      simp
  refine ⟨h1, ?_⟩
  intro snaps
  induction snaps with
  | nil => rfl
  | cons f rest ih => simp [watchRun, h1 f, ih]

/-- C10: for every pair of non-empty snapshots of equal length whose
entries have pairwise equal modification times, no restart signal is
sent and the memo is kept — change detection compares only length and
per-position modification times, never paths. -/
theorem watch_ignores_paths (memo files : List FileInfo)
    (_hm : memo ≠ []) (_hf : files ≠ [])
    (hlen : files.length = memo.length)
    (hmt : ∀ k, k < files.length →
      (files.getD k fdef).modTime = (memo.getD k fdef).modTime) :
    watchTick memo files = (memo, 0) :=
  watchTick_eq_of_modTimes_eq memo files hlen hmt

/-- C10 witness: every path was replaced by a different file bearing an
identical modification time; the tick is silent. -/
theorem watch_ignores_paths_witness :
    watchTick [⟨"old.go", 3⟩] [⟨"new.go", 3⟩] = ([⟨"old.go", 3⟩], 0) :=
  watch_ignores_paths [⟨"old.go", 3⟩] [⟨"new.go", 3⟩]
    (by decide) (by decide) rfl (by decide)

/-- C1: code behaviour at the failing input.  A failed build does park
the runner at the bare `<-restart` without starting a run; but on
receipt of the restart signal the runner falls through to
`go b.Run(runContext)` — it starts the run step (with the stale
artifact) and moves to the `select`, instead of looping back to the
build step.  This contradicts `Start`'s own doc comment ("otherwise the
restart channel will trigger a rebuild and rerun"). -/
theorem runner_build_failure_fallthrough :
    runnerStep .building .buildFail = ⟨.awaitRestart, false, false⟩ ∧
    runnerStep .awaitRestart .restart = ⟨.selecting, true, false⟩ :=
  ⟨rfl, rfl⟩

/-- C5: the asynchronous failure of the run child process is an event
the runner never receives — it changes no state, starts no run and
cancels nothing, at every blocking point; and while a run is live (the
`select`), the only events that move the runner at all are the restart
signal and root cancellation. -/
theorem runner_ignores_run_failure :
    (∀ s, runnerStep s .runFailed = ⟨s, false, false⟩) ∧
    (∀ i, (runnerStep .selecting i).next ≠ RState.selecting →
      i = RInput.restart ∨ i = RInput.cancel) := by
  constructor
  · intro s
    cases s <;> rfl
  · intro i hi
    cases i <;>
      first
        | exact Or.inl rfl
        | exact Or.inr rfl
        | exact absurd rfl hi

/-- C5 witness. -/
theorem runner_ignores_run_failure_witness :
    runnerStep .selecting .runFailed = ⟨.selecting, false, false⟩ ∧
    (RInput.cancel = RInput.restart ∨ RInput.cancel = RInput.cancel) :=
  ⟨runner_ignores_run_failure.1 RState.selecting,
    runner_ignores_run_failure.2 RInput.cancel (by decide)⟩

/-- C6: root cancellation received while a run process is active (the
`select`) cancels the run child context and moves the runner to its
terminal state, from which no event ever starts another build, run or
cancellation — the loop has exited permanently. -/
theorem runner_cancel_terminates :
    runnerStep .selecting .cancel = ⟨.terminated, false, true⟩ ∧
    (∀ i, runnerStep .terminated i = ⟨.terminated, false, false⟩) := by
  refine ⟨rfl, ?_⟩
  intro i
  cases i <;> rfl

/-- The restart channel's buffer is empty in every reachable state:
`make(chan struct{})` has capacity zero, so no send can ever deposit a
signal into the buffer. -/
theorem reachable_buffered_zero {s : Sys} (hs : Reachable s) :
    s.buffered = 0 := by
  induction hs with
  | init => rfl
  | step hr hst ih =>
    cases hst with
    | detect r buf => exact ih
    | sendBuffered r buf h =>
      exact absurd h (by simp [restartChanCap])
    | recvBuffered r w buf h hr2 =>
      simp only [Sys.buffered] at ih ⊢
      omega
    | handshake r hr2 => rfl
    | buildOk w buf => exact ih
    | buildFail w buf => exact ih
    | cancel w buf => exact ih

/-- C8: in every reachable state of a build group there is at most one
outstanding unconsumed restart signal (the unbuffered channel holds
none, and the single watcher can hold at most one blocked send); and
every rebuild transition — the runner leaving the `select` for the build
step — is a rendezvous that consumes the watcher's one pending signal,
leaving the watcher idle with nothing queued, so change detections
during a build coalesce into at most one subsequent rebuild cycle. -/
theorem restart_channel_coalescing (s : Sys) (hs : Reachable s) :
    outstanding s ≤ 1 ∧
    (∀ t, Step s t → s.runner = RState.selecting →
      t.runner = RState.building →
      s.watcher = WPhase.wantSend ∧ t.watcher = WPhase.idle) := by
  have hbuf : s.buffered = 0 := reachable_buffered_zero hs
  constructor
  · unfold outstanding
    rw [hbuf]
    split <;> omega
  · intro t hst hsel hbld
    cases hst with
    | detect r buf =>
      simp only [Sys.runner] at hsel hbld
      rw [hsel] at hbld
      exact absurd hbld (by decide)
    | sendBuffered r buf h =>
      exact absurd h (by simp [restartChanCap])
    | recvBuffered r w buf h hr2 =>
      simp only [Sys.buffered] at hbuf
      omega
    | handshake r hr2 => exact ⟨rfl, rfl⟩
    | buildOk w buf =>
      simp only [Sys.runner] at hsel
      exact absurd hsel (by decide)
    | buildFail w buf =>
      simp only [Sys.runner] at hsel
      exact absurd hsel (by decide)
    | cancel w buf =>
      simp only [Sys.runner, runnerStep] at hbld
      exact absurd hbld (by decide)

/-- C8 witness: the reachable state "run live, watcher mid-send" has one
outstanding signal, and its rebuild rendezvous leaves the watcher idle. -/
theorem restart_channel_coalescing_witness :
    outstanding ⟨RState.selecting, WPhase.wantSend, 0⟩ ≤ 1 ∧
    (Sys.mk RState.selecting WPhase.wantSend 0).watcher = WPhase.wantSend ∧
    (Sys.mk RState.building WPhase.idle 0).watcher = WPhase.idle := by
  have h1 : Reachable ⟨RState.selecting, WPhase.idle, 0⟩ :=
    Reachable.step Reachable.init (Step.buildOk WPhase.idle 0)
  have h2 : Reachable ⟨RState.selecting, WPhase.wantSend, 0⟩ :=
    Reachable.step h1 (Step.detect RState.selecting 0)
  have hstep : Step ⟨RState.selecting, WPhase.wantSend, 0⟩
      ⟨RState.building, WPhase.idle, 0⟩ :=
    Step.handshake RState.selecting (Or.inr rfl)
  have h := restart_channel_coalescing ⟨RState.selecting, WPhase.wantSend, 0⟩ h2
  exact ⟨h.1, h.2 ⟨RState.building, WPhase.idle, 0⟩ hstep rfl rfl⟩
